import Mathlib

/-!
Verification of the BriefBot message-storage core (`src/bot.py`,
class `GroupAssistantBot`).

The Python code is shallowly embedded as follows:
* Python strings are modelled as `List Char`; a stored line (as returned
  by `readlines`) is one `List Char`, trailing newline included.
* `datetime` values are modelled by `PyDateTime`; `datetime.fromisoformat`
  and `datetime.isoformat` are modelled for the format family this
  program reads and writes (`YYYY-MM-DD[THH:MM:SS[.ffffff]]`), and
  `timedelta(days = n)` subtraction via a proleptic Gregorian day count.
* The filesystem and the topics-metadata dictionary are modelled by
  association lists inside `BotState`; `datetime.now()` is an explicit
  parameter; an I/O failure during the append in `store_message` is an
  explicit `writeOk` flag (the Python code catches the exception and
  returns normally either way).
-/

namespace BriefBot

/-! ### Python string primitives over `List Char` -/

/-- One stored line / Python string. -/
abbrev PyStr := List Char

/-- Model of Python `str.strip()` (no argument): remove leading and
trailing whitespace. -/
def pyStrip (s : PyStr) : PyStr :=
  ((s.dropWhile Char.isWhitespace).reverse.dropWhile Char.isWhitespace).reverse

/-- Model of Python `str.split(sep)` with a one-character separator and
no maxsplit: split at every occurrence of `sep`. -/
def pySplit (sep : Char) : PyStr → List PyStr
  | [] => [[]]
  | c :: cs =>
    if c = sep then [] :: pySplit sep cs
    else
      match pySplit sep cs with
      | [] => [[c]]
      | t :: ts => (c :: t) :: ts

/-- Model of Python `str.split(sep, maxsplit)` with a one-character
separator: split at the first `maxsplit` occurrences of `sep` only. -/
def pySplitLim (sep : Char) : Nat → PyStr → List PyStr
  | _, [] => [[]]
  | 0, cs => [cs]
  | Nat.succ k, c :: cs =>
    if c = sep then [] :: pySplitLim sep k cs
    else
      match pySplitLim sep (Nat.succ k) cs with
      | [] => [[c]]
      | t :: ts => (c :: t) :: ts

/-- Model of Python `sep.join(parts)` with a one-character separator. -/
def pyJoin (sep : Char) : List PyStr → PyStr
  | [] => []
  | [x] => x
  | x :: xs => x ++ sep :: pyJoin sep xs

/-- Model of Python `str.isdigit()` on ASCII data: nonempty and all
characters are decimal digits. -/
def pyIsdigit (s : PyStr) : Bool :=
  !s.isEmpty && s.all Char.isDigit

/-- Numeric value of a digit character. -/
def digitVal (c : Char) : Nat := c.toNat - 48

/-- Value of a nonempty all-digit string, `none` otherwise. -/
def digitsToNat (s : PyStr) : Option Nat :=
  if pyIsdigit s then some (s.foldl (fun a c => a * 10 + digitVal c) 0) else none

/-- Model of Python `int(s)` on a string, as used by the code
(`int(user_id)`, `int(message_id_str)`): optional surrounding
whitespace, optional sign, decimal digits; `none` models the
`ValueError` branch. -/
def pyInt? (s : PyStr) : Option Int :=
  match pyStrip s with
  | '-' :: ds => (digitsToNat ds).map (fun n => -(n : Int))
  | '+' :: ds => (digitsToNat ds).map (fun n => (n : Int))
  | ds => (digitsToNat ds).map (fun n => (n : Int))

/-- The `'None'` sentinel written for an absent message id. -/
def noneChars : PyStr := ['N', 'o', 'n', 'e']

/-- Rendering of an `int` by a Python f-string. -/
def intChars (m : Int) : PyStr := (toString m).toList

/-! ### datetime model -/

/-- Model of a Python `datetime` value. -/
structure PyDateTime where
  year : Nat
  month : Nat
  day : Nat
  hour : Nat
  minute : Nat
  second : Nat
  microsecond : Nat
deriving DecidableEq

/-- Leap year in the proleptic Gregorian calendar. -/
def isLeap (y : Nat) : Bool :=
  (y % 4 == 0 && y % 100 != 0) || y % 400 == 0

/-- Number of days of a month. -/
def daysInMonth (y m : Nat) : Nat :=
  if m = 2 then (if isLeap y then 29 else 28)
  else if m = 4 ∨ m = 6 ∨ m = 9 ∨ m = 11 then 30
  else 31

/-- Day count of a Gregorian civil date (days since 0000-03-01,
valid for years ≥ 1). -/
def daysFromCivil (y m d : Nat) : Nat :=
  let y' := if m ≤ 2 then y - 1 else y
  let era := y' / 400
  let yoe := y' % 400
  let mp := (m + 9) % 12
  let doy := (153 * mp + 2) / 5 + d - 1
  let doe := yoe * 365 + yoe / 4 - yoe / 100 + doy
  era * 146097 + doe

/-- Inverse of `daysFromCivil`. -/
def civilFromDays (z : Nat) : Nat × Nat × Nat :=
  let era := z / 146097
  let doe := z % 146097
  let yoe := (doe - doe / 1460 + doe / 36524 - doe / 146096) / 365
  let y := yoe + era * 400
  let doy := doe - (365 * yoe + yoe / 4 - yoe / 100)
  let mp := (5 * doy + 2) / 153
  let d := doy - (153 * mp + 2) / 5 + 1
  let m := if mp < 10 then mp + 3 else mp - 9
  (if m ≤ 2 then y + 1 else y, m, d)

/-- Model of `datetime - timedelta(days = n)`: same time of day,
`n` days earlier. -/
def subDays (t : PyDateTime) (n : Nat) : PyDateTime :=
  let z := daysFromCivil t.year t.month t.day - n
  match civilFromDays z with
  | (y, m, d) => { t with year := y, month := m, day := d }

/-- Linear key of a datetime (microseconds on a proleptic Gregorian
axis); Python `datetime` comparison is modelled by comparing keys. -/
def PyDateTime.key (t : PyDateTime) : Nat :=
  daysFromCivil t.year t.month t.day * 86400000000 +
    (t.hour * 3600 + t.minute * 60 + t.second) * 1000000 + t.microsecond

/-- Left-pad the decimal rendering of `n` with zeros to width `w`. -/
def padNat (w n : Nat) : PyStr :=
  let s := (toString n).toList
  List.replicate (w - s.length) '0' ++ s

/-- Model of `datetime.isoformat()`: `YYYY-MM-DDTHH:MM:SS`, with
`.ffffff` appended exactly when the microsecond field is nonzero. -/
def isoChars (t : PyDateTime) : PyStr :=
  padNat 4 t.year ++ '-' :: padNat 2 t.month ++ '-' :: padNat 2 t.day ++
    'T' :: padNat 2 t.hour ++ ':' :: padNat 2 t.minute ++ ':' :: padNat 2 t.second ++
    (if t.microsecond = 0 then [] else '.' :: padNat 6 t.microsecond)

/-- Parse the time-of-day part `HH:MM:SS[.ffffff]`. -/
def fromIsoTime : PyStr → Option (Nat × Nat × Nat × Nat)
  | [h1, h2, ':', n1, n2, ':', s1, s2] =>
    if [h1, h2, n1, n2, s1, s2].all Char.isDigit then
      let h := digitVal h1 * 10 + digitVal h2
      let mi := digitVal n1 * 10 + digitVal n2
      let s := digitVal s1 * 10 + digitVal s2
      if h < 24 ∧ mi < 60 ∧ s < 60 then some (h, mi, s, 0) else none
    else none
  | h1 :: h2 :: ':' :: n1 :: n2 :: ':' :: s1 :: s2 :: '.' :: fs =>
    if [h1, h2, n1, n2, s1, s2].all Char.isDigit ∧ fs.length = 6 ∧ fs.all Char.isDigit then
      let h := digitVal h1 * 10 + digitVal h2
      let mi := digitVal n1 * 10 + digitVal n2
      let s := digitVal s1 * 10 + digitVal s2
      if h < 24 ∧ mi < 60 ∧ s < 60 then
        some (h, mi, s, fs.foldl (fun a c => a * 10 + digitVal c) 0)
      else none
    else none
  | _ => none

/-- Model of `datetime.fromisoformat` on the format family this program
writes (`YYYY-MM-DD`, optionally followed by a separator and
`HH:MM:SS[.ffffff]`); `none` models the `ValueError` branch. -/
def fromIso : PyStr → Option PyDateTime
  | y1 :: y2 :: y3 :: y4 :: '-' :: m1 :: m2 :: '-' :: d1 :: d2 :: rest =>
    if [y1, y2, y3, y4, m1, m2, d1, d2].all Char.isDigit then
      let y := ((digitVal y1 * 10 + digitVal y2) * 10 + digitVal y3) * 10 + digitVal y4
      let mo := digitVal m1 * 10 + digitVal m2
      let d := digitVal d1 * 10 + digitVal d2
      if 1 ≤ mo ∧ mo ≤ 12 ∧ 1 ≤ d ∧ d ≤ daysInMonth y mo then
        match rest with
        | [] => some ⟨y, mo, d, 0, 0, 0, 0⟩
        | _sep :: tcs =>
          (fromIsoTime tcs).map fun q => ⟨y, mo, d, q.1, q.2.1, q.2.2.1, q.2.2.2⟩
      else none
    else none
  | _ => none

/-- Model of `strftime('%H:%M')`. -/
def fmtHM (t : PyDateTime) : PyStr :=
  padNat 2 t.hour ++ ':' :: padNat 2 t.minute

/-! ### Record codec and the scan loop (`load_messages`, lines 246-307) -/

/-- One decoded message, the dictionary built at lines 285-293. -/
structure Message where
  text : PyStr
  user : PyStr
  user_id : Int
  date : PyDateTime
  formatted_date : PyStr
  timestamp : PyStr
  message_id : Option Int
deriving DecidableEq

/-- Field extraction of the scan loop (lines 262-271): strip, split on
the delimiter, skip when fewer than 4 fields, synthesize the
`'None'` message id for the legacy 4-field format, and rejoin the
trailing fields into the text when 5 or more are present. -/
def parseFields (line : PyStr) : Option (PyStr × PyStr × PyStr × PyStr × PyStr) :=
  match pySplit '|' (pyStrip line) with
  | t :: u :: n :: rest =>
    match rest with
    | [] => none
    | [x] => some (t, u, n, noneChars, x)
    | x :: xs => some (t, u, n, x, pyJoin '|' xs)
  | _ => none

/-- The dictionary construction of lines 285-293; `none` models the
`ValueError` raised by `int(user_id)`, which line 295 catches. -/
def buildMsg (ts u n mids txt : PyStr) (t : PyDateTime) : Option Message :=
  match pyInt? u with
  | none => none
  | some uid =>
    some { text := txt, user := n, user_id := uid, date := t,
           formatted_date := fmtHM t, timestamp := ts,
           message_id :=
             if mids ≠ noneChars ∧ pyIsdigit mids then
               (digitsToNat mids).map (fun k => (k : Int))
             else none }

/-- Python truthiness of an optional integer (`if topic_id:`,
`if from_message_id ...:`, `if limit:`). -/
def truthyOptInt : Option Int → Bool
  | none => false
  | some n => n != 0

/-- Rendering by `str(from_message_id)` at line 280. -/
def markerChars : Option Int → PyStr
  | some m => intChars m
  | none => noneChars

/-- The retention window `self.days_to_keep` (line 95). -/
def days_to_keep : Nat := 30

/-- Key of `cutoff_time = datetime.now() - timedelta(days=self.days_to_keep)`. -/
def cutoffKey (now : PyDateTime) : Nat := (subDays now days_to_keep).key

/-- Decoding of one line by the scan loop body when no marker filtering
applies: fields, timestamp, age cutoff, then the dictionary build. -/
def decodeSurviving (k : Nat) (line : PyStr) : Option Message :=
  match parseFields line with
  | none => none
  | some (ts, u, n, mids, txt) =>
    match fromIso ts with
    | none => none
    | some t => if t.key < k then none else buildMsg ts u n mids txt t

/-- The scan loop of lines 260-297. The boolean is
`found_start_message`; note that the marker comparison at line 280
happens before `int(user_id)` can fail, so a malformed line can still
consume the marker. -/
def loadLoop (k : Nat) (fmid : Option Int) : Bool → List PyStr → List Message
  | _, [] => []
  | found, line :: rest =>
    match parseFields line with
    | none => loadLoop k fmid found rest
    | some (ts, u, n, mids, txt) =>
      match fromIso ts with
      | none => loadLoop k fmid found rest
      | some t =>
        if t.key < k then loadLoop k fmid found rest
        else if truthyOptInt fmid && !found then
          if !(mids == noneChars) && mids == markerChars fmid then
            (buildMsg ts u n mids txt t).toList ++ loadLoop k fmid true rest
          else loadLoop k fmid found rest
        else (buildMsg ts u n mids txt t).toList ++ loadLoop k fmid found rest

/-- Python `messages[-limit:]` (line 301). -/
def pySliceLast (l : List Message) (lim : Int) : List Message :=
  if 0 < lim then l.drop (l.length - lim.toNat) else l.drop (-lim).toNat

/-- Insert a message in front of the first element with a date key not
smaller than its own. -/
def orderedInsertByDate (m : Message) : List Message → List Message
  | [] => [m]
  | x :: xs => if m.date.key ≤ x.date.key then m :: x :: xs else x :: orderedInsertByDate m xs

/-- Model of `messages.sort(key=lambda x: x['date'])` (line 299):
Python's sort is stable, and a stable sort is unique, so the stable
insertion sort below computes the same list. -/
def sortByDate : List Message → List Message
  | [] => []
  | m :: ms => orderedInsertByDate m (sortByDate ms)

/-- `load_messages` on the contents of one backing store: the scan
loop, the stable sort by date (line 299), and the limit slice. The
initial flag is `from_message_id is None` (line 255). -/
def loadLines (lines : List PyStr) (now : PyDateTime)
    (limit : Option Int) (from_message_id : Option Int) : List Message :=
  let msgs := loadLoop (cutoffKey now) from_message_id from_message_id.isNone lines
  let sorted := sortByDate msgs
  if truthyOptInt limit then pySliceLast sorted (limit.getD 0) else sorted

/-! ### Retention compaction (`cleanup_old_messages`, lines 309-348) -/

/-- One iteration of the compaction loop (lines 323-339): split with
maxsplit 4, keep short or unparseable lines verbatim, keep records at
or after the cutoff, count the removed ones. -/
def cleanupStep (k : Nat) (acc : List PyStr × Nat) (line : PyStr) : List PyStr × Nat :=
  let parts := pySplitLim '|' 4 (pyStrip line)
  if parts.length < 4 then (acc.1 ++ [line], acc.2)
  else
    match parts with
    | [] => (acc.1 ++ [line], acc.2)
    | tsf :: _ =>
      match fromIso tsf with
      | none => (acc.1 ++ [line], acc.2)
      | some t => if k ≤ t.key then (acc.1 ++ [line], acc.2) else (acc.1, acc.2 + 1)

/-- `cleanup_old_messages` on the contents of one backing store:
returns the rewritten contents and the removed count. -/
def cleanupLines (lines : List PyStr) (now : PyDateTime) : List PyStr × Nat :=
  lines.foldl (cleanupStep (cutoffKey now)) ([], 0)

/-! ### State: files, topics metadata, handlers -/

/-- A backing-store location: the flag says whether the file lives in
the archive directory (`chat_storage/archived_topics`) rather than the
active directory (`chat_storage`); `base` is the file name. -/
structure StorePath where
  archivedArea : Bool
  base : String
deriving DecidableEq

/-- One topics-metadata entry (lines 360-368). -/
structure TopicMeta where
  topic_id : Int
  chat_id : Int
  name : String
  status : String
  created_at : String
  closed_at : Option String
  message_count : Nat
deriving DecidableEq

/-- Association-list lookup (first matching key). -/
def alookup {κ α : Type} [DecidableEq κ] (k : κ) : List (κ × α) → Option α
  | [] => none
  | (k', v) :: rest => if k' = k then some v else alookup k rest

/-- Association-list update: replace the first binding of the key, or
append a new binding. -/
def aset {κ α : Type} [DecidableEq κ] (k : κ) (v : α) : List (κ × α) → List (κ × α)
  | [] => [(k, v)]
  | (k', v') :: rest => if k' = k then (k, v) :: rest else (k', v') :: aset k v rest

/-- Association-list removal of every binding of the key. -/
def aremove {κ α : Type} [DecidableEq κ] (k : κ) : List (κ × α) → List (κ × α)
  | [] => []
  | (k', v') :: rest => if k' = k then aremove k rest else (k', v') :: aremove k rest

/-- The mutable state of the bot that the claims touch: the in-memory
topics metadata, its persisted mirror (written by
`save_topics_metadata`), and the stored files with their contents. -/
structure BotState where
  topics_metadata : List (String × TopicMeta)
  persisted_metadata : List (String × TopicMeta)
  files : List (StorePath × List PyStr)
deriving DecidableEq

/-- The state with no metadata and no files. -/
def emptyState : BotState := ⟨[], [], []⟩

/-- `get_topic_key` (line 120): the f-string rendering of the key. -/
def get_topic_key (chat_id topic_id : Int) : String :=
  toString chat_id ++ "_" ++ toString topic_id

/-- `get_storage_filename` (lines 192-197); note `if topic_id:` is
Python truthiness, so topic id 0 (and None) selects the chat file. -/
def get_storage_filename (chat_id : Int) (topic_id : Option Int) : StorePath :=
  match topic_id with
  | some t =>
    if t ≠ 0 then ⟨false, "topic_" ++ toString chat_id ++ "_" ++ toString t ++ ".txt"⟩
    else ⟨false, "chat_" ++ toString chat_id ++ ".txt"⟩
  | none => ⟨false, "chat_" ++ toString chat_id ++ ".txt"⟩

/-- `{message_id or 'None'}` in the encoded line (line 219): Python
truthiness again, so message id 0 is encoded as the sentinel. -/
def midOrNone : Option Int → PyStr
  | some m => if m = 0 then noneChars else intChars m
  | none => noneChars

/-- The encoded line of line 219:
timestamp, author id, author name, message id, text, newline. -/
def encodeLine (ts uid uname mids txt : PyStr) : PyStr :=
  ts ++ '|' :: uid ++ '|' :: uname ++ '|' :: mids ++ '|' :: txt ++ ['\n']

/-- `store_message` (lines 199-244). The metadata increment and its
save happen before the file write is attempted; `writeOk = false`
models an exception raised by the write, which the handler at line 240
catches and swallows, leaving the state otherwise as built. -/
def store_message (st : BotState) (now : PyDateTime) (chat_id : Int) (topic_id : Option Int)
    (user_id username message_text : PyStr) (message_id : Option Int) (writeOk : Bool) :
    BotState :=
  let st1 :=
    match topic_id with
    | some t =>
      if t ≠ 0 then
        match alookup (get_topic_key chat_id t) st.topics_metadata with
        | some meta =>
          let md := aset (get_topic_key chat_id t)
            { meta with message_count := meta.message_count + 1 } st.topics_metadata
          { st with topics_metadata := md, persisted_metadata := md }
        | none => st
      else st
    | none => st
  if writeOk then
    let fn := get_storage_filename chat_id topic_id
    let line := encodeLine (isoChars now) user_id username (midOrNone message_id) message_text
    let content := (alookup fn st1.files).getD []
    { st1 with files := aset fn (content ++ [line]) st1.files }
  else st1

/-- `load_messages` (lines 246-307) at the state level: a missing file
yields the empty result. -/
def load_messages (st : BotState) (chat_id : Int) (topic_id : Option Int)
    (limit : Option Int) (from_message_id : Option Int) (now : PyDateTime) : List Message :=
  match alookup (get_storage_filename chat_id topic_id) st.files with
  | none => []
  | some lines => loadLines lines now limit from_message_id

/-- `cleanup_old_messages` (lines 309-348) at the state level: rewrite
the backing store, return the removed count, 0 for a missing file. -/
def cleanup_old_messages (st : BotState) (now : PyDateTime)
    (chat_id : Int) (topic_id : Option Int) : BotState × Nat :=
  match alookup (get_storage_filename chat_id topic_id) st.files with
  | none => (st, 0)
  | some lines =>
    let r := cleanupLines lines now
    ({ st with files := aset (get_storage_filename chat_id topic_id) r.1 st.files }, r.2)

/-- `handle_topic_created` (lines 350-375): register fresh metadata,
touch the active file, save. -/
def handle_topic_created (st : BotState) (now : PyDateTime)
    (chat_id topic_id : Int) (name : String) : BotState :=
  let key := get_topic_key chat_id topic_id
  let meta : TopicMeta :=
    { topic_id := topic_id, chat_id := chat_id, name := name, status := "open",
      created_at := String.mk (isoChars now), closed_at := none, message_count := 0 }
  let md := aset key meta st.topics_metadata
  let fn := get_storage_filename chat_id (some topic_id)
  let files := if (alookup fn st.files).isSome then st.files else aset fn [] st.files
  { topics_metadata := md, persisted_metadata := md, files := files }

/-- `handle_topic_closed` (lines 377-398): when metadata for the key
exists, mark it closed and move the active file (if any) into the
archive directory; the save at line 395 runs in either case. -/
def handle_topic_closed (st : BotState) (now : PyDateTime) (chat_id topic_id : Int) :
    BotState :=
  let key := get_topic_key chat_id topic_id
  let st1 :=
    match alookup key st.topics_metadata with
    | some meta =>
      let md := aset key
        { meta with status := "closed", closed_at := some (String.mk (isoChars now)) }
        st.topics_metadata
      let current := get_storage_filename chat_id (some topic_id)
      let archf : StorePath := ⟨true, current.base⟩
      let files :=
        match alookup current st.files with
        | some content => aset archf content (aremove current st.files)
        | none => st.files
      { st with topics_metadata := md, files := files }
    | none => st
  { st1 with persisted_metadata := st1.topics_metadata }

/-- `handle_topic_reopened` (lines 400-424): when metadata for the key
exists, mark it open and move the archived file back, or touch a fresh
active file when the archived file is gone; the save at line 421 runs
in either case. -/
def handle_topic_reopened (st : BotState) (_now : PyDateTime) (chat_id topic_id : Int) :
    BotState :=
  let key := get_topic_key chat_id topic_id
  let st1 :=
    match alookup key st.topics_metadata with
    | some meta =>
      let md := aset key { meta with status := "open", closed_at := none } st.topics_metadata
      let archf : StorePath :=
        ⟨true, "topic_" ++ toString chat_id ++ "_" ++ toString topic_id ++ ".txt"⟩
      let current := get_storage_filename chat_id (some topic_id)
      let files :=
        match alookup archf st.files with
        | some content => aset current content (aremove archf st.files)
        | none => if (alookup current st.files).isSome then st.files else aset current [] st.files
      { st with topics_metadata := md, files := files }
    | none => st
  { st1 with persisted_metadata := st1.topics_metadata }

/-- The author identity chosen by `handle_text_message`
(lines 468-473): the transport user id rendered as a string, or the
`'bot'` sentinel when the update has no `from_user`. -/
def text_message_author (from_user : Option (Int × String)) : PyStr × PyStr :=
  match from_user with
  | some fu => (intChars fu.1, fu.2.toList)
  | none => ("bot".toList, "Bot".toList)

/-- A topic-lifecycle event for one `(chat_id, topic_id)` key. -/
inductive TopicEvent where
  | created (name : String)
  | closed
  | reopened
deriving DecidableEq

/-- Dispatch of one lifecycle event to its handler. -/
def topicStep (chat_id topic_id : Int) (now : PyDateTime) (st : BotState) :
    TopicEvent → BotState
  | .created name => handle_topic_created st now chat_id topic_id name
  | .closed => handle_topic_closed st now chat_id topic_id
  | .reopened => handle_topic_reopened st now chat_id topic_id

/-- Run a sequence of lifecycle events for one key. -/
def runEvents (chat_id topic_id : Int) (now : PyDateTime)
    (st : BotState) (evs : List TopicEvent) : BotState :=
  evs.foldl (topicStep chat_id topic_id now) st

/-! ### Specification-side predicates (from the spec's words) -/

/-- From the spec: a stored line "survives" a scan when its fields
parse, its timestamp parses and the timestamp is at or after the
cutoff; the line "matches" marker `M` when additionally its external-id
field is not the `'None'` sentinel and equals the decimal rendering of
`M`. -/
def lineSurvivesMatch (k : Nat) (M : Int) (line : PyStr) : Bool :=
  match parseFields line with
  | none => false
  | some (ts, _, _, mids, _) =>
    match fromIso ts with
    | none => false
    | some t =>
      if t.key < k then false else !(mids == noneChars) && mids == intChars M

/-- From the spec: compaction keeps a line exactly when it is malformed
(for compaction: fewer than 4 fields or an unparseable timestamp) or
its timestamp is at or after the cutoff. -/
def compactKeeps (k : Nat) (line : PyStr) : Bool :=
  let parts := pySplitLim '|' 4 (pyStrip line)
  if parts.length < 4 then true
  else
    match parts with
    | [] => true
    | tsf :: _ =>
      match fromIso tsf with
      | none => true
      | some t => k ≤ t.key

/-! ### Helper lemmas -/

theorem alookup_aset_self {κ α : Type} [DecidableEq κ] (k : κ) (v : α) :
    ∀ l : List (κ × α), alookup k (aset k v l) = some v := by
  intro l
  induction l with
  | nil => simp [alookup, aset]
  | cons p rest ih =>
    obtain ⟨k', v'⟩ := p
    by_cases h : k' = k
    · simp [alookup, aset, h]
    · simp [alookup, aset, h, ih]

theorem alookup_aset_ne {κ α : Type} [DecidableEq κ] {k k' : κ} (v : α)
    (h : k' ≠ k) : ∀ l : List (κ × α), alookup k (aset k' v l) = alookup k l := by
  intro l
  induction l with
  | nil => simp [alookup, aset, h]
  | cons p rest ih =>
    obtain ⟨k₀, v₀⟩ := p
    by_cases h0 : k₀ = k'
    · subst h0
      simp [alookup, aset, h]
    · simp [alookup, aset, h0, ih]

theorem alookup_aremove_self {κ α : Type} [DecidableEq κ] (k : κ) :
    ∀ l : List (κ × α), alookup k (aremove k l) = none := by
  intro l
  induction l with
  | nil => simp [alookup, aremove]
  | cons p rest ih =>
    obtain ⟨k₀, v₀⟩ := p
    by_cases h0 : k₀ = k
    · simp [aremove, h0, ih]
    · simp [alookup, aremove, h0, ih]

theorem alookup_aremove_ne {κ α : Type} [DecidableEq κ] {k k' : κ}
    (h : k' ≠ k) : ∀ l : List (κ × α), alookup k (aremove k' l) = alookup k l := by
  intro l
  induction l with
  | nil => simp [aremove]
  | cons p rest ih =>
    obtain ⟨k₀, v₀⟩ := p
    by_cases h0 : k₀ = k'
    · subst h0
      simp [alookup, aremove, h, ih]
    · simp [alookup, aremove, h0, ih]

theorem orderedInsertByDate_perm (m : Message) :
    ∀ l : List Message, List.Perm (orderedInsertByDate m l) (m :: l) := by
  intro l
  induction l with
  | nil => simp [orderedInsertByDate]
  | cons x xs ih =>
    by_cases h : m.date.key ≤ x.date.key
    · simp [orderedInsertByDate, h]
    · simp only [orderedInsertByDate, if_neg h]
      exact (ih.cons x).trans (List.Perm.swap m x xs)

theorem sortByDate_perm : ∀ l : List Message, List.Perm (sortByDate l) l := by
  intro l
  induction l with
  | nil => simp [sortByDate]
  | cons m ms ih =>
    exact (orderedInsertByDate_perm m (sortByDate ms)).trans (ih.cons m)

theorem mem_sortByDate {x : Message} {l : List Message} :
    x ∈ sortByDate l ↔ x ∈ l :=
  (sortByDate_perm l).mem_iff

/-- Once the start marker has been found (or when no marker filtering
is active), the scan loop is a plain filterMap of the per-line
decoder. -/
theorem loadLoop_found (k : Nat) (fmid : Option Int) :
    ∀ lines : List PyStr, loadLoop k fmid true lines = lines.filterMap (decodeSurviving k) := by
  intro lines
  induction lines with
  | nil => rfl
  | cons line rest ih =>
    simp only [loadLoop, List.filterMap_cons]
    cases hp : parseFields line with
    | none => simp [decodeSurviving, hp, ih]
    | some q =>
      obtain ⟨ts, u, n, mids, txt⟩ := q
      cases hf : fromIso ts with
      | none => simp [decodeSurviving, hp, hf, ih]
      | some t =>
        by_cases hk : t.key < k
        · simp [decodeSurviving, hp, hf, hk, ih]
        · cases hb : buildMsg ts u n mids txt t with
          | none => simp [decodeSurviving, hp, hf, hk, hb, ih]
          | some msg => simp [decodeSurviving, hp, hf, hk, hb, ih]

/-- With a falsy marker the flag is irrelevant: the loop is a plain
filterMap. -/
theorem loadLoop_falsy (k : Nat) {fmid : Option Int}
    (hf : truthyOptInt fmid = false) (found : Bool) :
    ∀ lines : List PyStr, loadLoop k fmid found lines = lines.filterMap (decodeSurviving k) := by
  intro lines
  induction lines with
  | nil => rfl
  | cons line rest ih =>
    simp only [loadLoop, List.filterMap_cons]
    cases hp : parseFields line with
    | none => simp [decodeSurviving, hp, ih]
    | some q =>
      obtain ⟨ts, u, n, mids, txt⟩ := q
      cases hft : fromIso ts with
      | none => simp [decodeSurviving, hp, hft, ih]
      | some t =>
        by_cases hk : t.key < k
        · simp [decodeSurviving, hp, hft, hk, ih]
        · cases hb : buildMsg ts u n mids txt t with
          | none => simp [decodeSurviving, hp, hft, hk, hb, hf, ih]
          | some msg => simp [decodeSurviving, hp, hft, hk, hb, hf, ih]

/-- With a truthy marker and the flag still unset, the loop drops every
line up to (but not including) the first surviving line whose
external-id field matches the marker, then decodes from that line on. -/
theorem loadLoop_marker (k : Nat) (M : Int) (hM : M ≠ 0) :
    ∀ lines : List PyStr,
      loadLoop k (some M) false lines =
        (lines.dropWhile (fun l => !(lineSurvivesMatch k M l))).filterMap (decodeSurviving k) := by
  intro lines
  have htr : truthyOptInt (some M) = true := by
    simp [truthyOptInt, hM]
  have hcond : (truthyOptInt (some M) && !false) = true := by
    simp [htr]
  induction lines with
  | nil => rfl
  | cons line rest ih =>
    cases hp : parseFields line with
    | none =>
      have hmatch : lineSurvivesMatch k M line = false := by
        simp [lineSurvivesMatch, hp]
      rw [List.dropWhile_cons_of_pos (by simp [hmatch]), ← ih]
      simp [loadLoop, hp]
    | some q =>
      obtain ⟨ts, u, n, mids, txt⟩ := q
      cases hft : fromIso ts with
      | none =>
        have hmatch : lineSurvivesMatch k M line = false := by
          simp [lineSurvivesMatch, hp, hft]
        rw [List.dropWhile_cons_of_pos (by simp [hmatch]), ← ih]
        simp [loadLoop, hp, hft]
      | some t =>
        by_cases hk : t.key < k
        · have hmatch : lineSurvivesMatch k M line = false := by
            simp [lineSurvivesMatch, hp, hft, hk]
          rw [List.dropWhile_cons_of_pos (by simp [hmatch]), ← ih]
          simp [loadLoop, hp, hft, hk]
        · by_cases hm : (!(mids == noneChars) && mids == intChars M) = true
          · have hmatch : lineSurvivesMatch k M line = true := by
              simp [lineSurvivesMatch, hp, hft, hk, hm]
            have hdec : decodeSurviving k line = buildMsg ts u n mids txt t := by
              simp [decodeSurviving, hp, hft, hk]
            rw [List.dropWhile_cons_of_neg (by simp [hmatch]), List.filterMap_cons, hdec]
            simp only [loadLoop, hp, hft]
            rw [if_neg hk, if_pos hcond, if_pos (by simpa [markerChars] using hm),
              loadLoop_found]
            cases buildMsg ts u n mids txt t <;> simp
          · have hmatch : lineSurvivesMatch k M line = false := by
              simp only [lineSurvivesMatch, hp, hft, if_neg hk]
              simpa using hm
            rw [List.dropWhile_cons_of_pos (by simp [hmatch]), ← ih]
            simp only [loadLoop, hp, hft]
            rw [if_neg hk, if_pos hcond, if_neg (by simpa [markerChars] using hm)]

/-- One step of the compaction loop, in terms of the keep predicate. -/
theorem cleanupStep_eq (k : Nat) (acc : List PyStr × Nat) (line : PyStr) :
    cleanupStep k acc line =
      if compactKeeps k line then (acc.1 ++ [line], acc.2) else (acc.1, acc.2 + 1) := by
  cases hp : pySplitLim '|' 4 (pyStrip line) with
  | nil => simp [cleanupStep, compactKeeps, hp]
  | cons tsf restp =>
    by_cases hl : restp.length + 1 < 4
    · simp [cleanupStep, compactKeeps, hp, hl]
    · cases hft : fromIso tsf with
      | none => simp [cleanupStep, compactKeeps, hp, hl, hft]
      | some t =>
        by_cases hk : k ≤ t.key
        · simp [cleanupStep, compactKeeps, hp, hl, hft, hk]
        · simp [cleanupStep, compactKeeps, hp, hl, hft, hk]

/-- The compaction fold keeps exactly the lines satisfying the keep
predicate, in order, and counts the others. -/
theorem cleanup_foldl (k : Nat) :
    ∀ (lines : List PyStr) (acc : List PyStr × Nat),
      lines.foldl (cleanupStep k) acc =
        (acc.1 ++ lines.filter (compactKeeps k),
         acc.2 + (lines.filter (fun l => !compactKeeps k l)).length) := by
  intro lines
  induction lines with
  | nil => intro acc; simp
  | cons line rest ih =>
    intro acc
    rw [List.foldl_cons, cleanupStep_eq, List.filter_cons, List.filter_cons]
    by_cases h : compactKeeps k line
    · simp [h, ih]
    · simp only [h, if_false, Bool.not_false]
      rw [ih]
      simp [h, Nat.add_comm, Nat.add_assoc, Nat.add_left_comm]

/-- Characterization of `cleanupLines`. -/
theorem cleanupLines_eq (lines : List PyStr) (now : PyDateTime) :
    cleanupLines lines now =
      (lines.filter (compactKeeps (cutoffKey now)),
       (lines.filter (fun l => !compactKeeps (cutoffKey now) l)).length) := by
  unfold cleanupLines
  rw [cleanup_foldl]
  simp

/-- Scan without marker and limit: a plain filterMap, stably sorted. -/
theorem loadLines_no_marker (lines : List PyStr) (now : PyDateTime) :
    loadLines lines now none none =
      sortByDate (lines.filterMap (decodeSurviving (cutoffKey now))) := by
  unfold loadLines
  rw [loadLoop_falsy (cutoffKey now) (by rfl) _ lines]
  rfl

/-! ### Concrete data used in scenarios, counterexamples and witnesses -/

/-- A line, written by the bot itself for a message without a
`from_user`, whose external-id field is 102. -/
def lineBotMarker : PyStr := "2025-06-01T00:00:00|bot|Bot|102|x\n".toList

/-- A well-formed line with external id 103. -/
def lineGood103 : PyStr := "2025-06-02T00:00:00|7|alice|103|y\n".toList

/-- A well-formed line with external id 101. -/
def lineGood101 : PyStr := "2025-06-01T00:00:00|7|alice|101|x\n".toList

/-- A line with 5 fields, a parseable timestamp, and an external-id
field that is neither numeric nor the `'None'` sentinel. -/
def lineBadMid : PyStr := "2025-06-05T10:00:00|7|alice|abc|hello\n".toList

/-- A scan instant for which all the lines above are inside the
30-day retention window. -/
def scanNow : PyDateTime := ⟨2025, 6, 10, 0, 0, 0, 0⟩

/-- Scenario A: three records appended with external ids 101, 102,
103, all inside the retention window of `scanNow`. -/
def scenarioAState : BotState :=
  store_message
    (store_message
      (store_message emptyState ⟨2025, 6, 1, 10, 0, 0, 0⟩ 42 none
        "7".toList "alice".toList "a".toList (some 101) true)
      ⟨2025, 6, 2, 10, 0, 0, 0⟩ 42 none "7".toList "alice".toList "b".toList (some 102) true)
    ⟨2025, 6, 3, 10, 0, 0, 0⟩ 42 none "7".toList "alice".toList "c".toList (some 103) true

/-- Scenario A scan: marker 102. -/
def scenarioAResult : List Message :=
  load_messages scenarioAState 42 none none (some 102) scanNow

/-- Scenario C clock: compaction runs at this instant. -/
def scenarioCNow : PyDateTime := ⟨2025, 7, 1, 12, 0, 0, 0⟩

/-- Scenario C: one record stored 31 days before `scenarioCNow` and one
stored the same day. -/
def scenarioCState : BotState :=
  store_message
    (store_message emptyState ⟨2025, 5, 31, 12, 0, 0, 0⟩ 1 none
      "7".toList "u".toList "old".toList (some 1) true)
    ⟨2025, 7, 1, 10, 0, 0, 0⟩ 1 none "7".toList "u".toList "new".toList (some 2) true

/-! ### Claims -/

/-- C2 (counterexample): in Scenario A, the scan with marker 102
returns two records, not exactly one — the marker match at line 281
sets `found_start_message` and then falls through to the append, so
the matching record itself is part of the result. -/
theorem C2_counterexample : scenarioAResult.length = 2 := by decide

/-- C2 (amended): in Scenario A, the scan with marker 102 returns
exactly the records with external ids 102 and 103, in this order —
the suffix of the sequence starting at the matching record, inclusive. -/
theorem C2_scenarioA_inclusive :
    scenarioAResult.map (fun m => m.message_id) = [some 102, some 103] ∧
    scenarioAResult.map (fun m => m.text) = ["b".toList, "c".toList] := by
  constructor <;> decide

/-- C5: compaction keeps exactly the lines that are malformed for
compaction (fewer than 4 fields, or an unparseable timestamp) or whose
timestamp is at or after the cutoff, verbatim and in order, and
returns the number of removed parseable records, malformed lines
excluded from the count. In particular, in Scenario C (one record 31
days old, one from today, 30-day window) it removes exactly 1 record
and a subsequent scan yields only today's record. -/
theorem C5_compact_keeps_and_scenarioC :
    (∀ (lines : List PyStr) (now : PyDateTime),
        cleanupLines lines now =
          (lines.filter (compactKeeps (cutoffKey now)),
           (lines.filter (fun l => !compactKeeps (cutoffKey now) l)).length))
    ∧ (cleanup_old_messages scenarioCState scenarioCNow 1 none).2 = 1
    ∧ (load_messages (cleanup_old_messages scenarioCState scenarioCNow 1 none).1
        1 none none none scenarioCNow).map (fun m => m.text) = ["new".toList] := by
  refine ⟨cleanupLines_eq, by decide, by decide⟩

/-- C6: with the clock held fixed, compacting the same store twice
with no appends in between removes 0 records the second time. -/
theorem C6_compact_idempotent :
    ∀ (st : BotState) (now : PyDateTime) (chat_id : Int) (topic_id : Option Int),
      (cleanup_old_messages
          (cleanup_old_messages st now chat_id topic_id).1 now chat_id topic_id).2 = 0 := by
  intro st now c tid
  cases h : alookup (get_storage_filename c tid) st.files with
  | none =>
    simp [cleanup_old_messages, h]
  | some lines =>
    simp only [cleanup_old_messages, h]
    rw [alookup_aset_self]
    simp only [cleanupLines_eq, List.filter_filter]
    have hp : (fun l => !compactKeeps (cutoffKey now) l && compactKeeps (cutoffKey now) l) =
        fun _ : PyStr => false := by
      funext l
      cases compactKeeps (cutoffKey now) l <;> rfl
    rw [hp]
    simp

/-- C8: retention compaction leaves the topics-metadata mapping (both
the in-memory copy and the persisted mirror) unchanged, while every
append to a topic with registered metadata increments its
`message_count` — the counter records lifetime appends, not the live
number of stored records. -/
theorem C8_compact_frames_metadata :
    (∀ (st : BotState) (now : PyDateTime) (chat_id : Int) (topic_id : Option Int),
        (cleanup_old_messages st now chat_id topic_id).1.topics_metadata = st.topics_metadata
        ∧ (cleanup_old_messages st now chat_id topic_id).1.persisted_metadata =
            st.persisted_metadata)
    ∧ (∀ (st : BotState) (now : PyDateTime) (chat_id t : Int)
        (uid uname txt : PyStr) (mid : Option Int) (ok : Bool) (meta : TopicMeta),
        t ≠ 0 →
        alookup (get_topic_key chat_id t) st.topics_metadata = some meta →
        alookup (get_topic_key chat_id t)
            (store_message st now chat_id (some t) uid uname txt mid ok).topics_metadata =
          some { meta with message_count := meta.message_count + 1 }) := by
  constructor
  · intro st now c tid
    cases h : alookup (get_storage_filename c tid) st.files with
    | none => simp [cleanup_old_messages, h]
    | some lines => simp [cleanup_old_messages, h]
  · intro st now c t uid uname txt mid ok meta ht hmeta
    cases ok <;> simp [store_message, ht, hmeta, alookup_aset_self]

/-- C10: when the append's file write fails (modelled by
`writeOk = false`), the metadata increment and its save have already
happened and are not rolled back: the in-memory and persisted counters
are incremented while the files are untouched. -/
theorem C10_metadata_updated_before_failed_write :
    ∀ (st : BotState) (now : PyDateTime) (chat_id t : Int)
      (uid uname txt : PyStr) (mid : Option Int) (meta : TopicMeta),
      t ≠ 0 →
      alookup (get_topic_key chat_id t) st.topics_metadata = some meta →
      alookup (get_topic_key chat_id t)
          (store_message st now chat_id (some t) uid uname txt mid false).topics_metadata =
        some { meta with message_count := meta.message_count + 1 }
      ∧ alookup (get_topic_key chat_id t)
          (store_message st now chat_id (some t) uid uname txt mid false).persisted_metadata =
        some { meta with message_count := meta.message_count + 1 }
      ∧ (store_message st now chat_id (some t) uid uname txt mid false).files = st.files := by
  intro st now c t uid uname txt mid meta ht hmeta
  refine ⟨?_, ?_, ?_⟩ <;> simp [store_message, ht, hmeta, alookup_aset_self]

/-- Metadata entry used to exercise the append/compaction theorems. -/
def metaW : TopicMeta :=
  { topic_id := 5, chat_id := 42, name := "Planning", status := "open",
    created_at := "2025-06-01T00:00:00", closed_at := none, message_count := 3 }

/-- A state whose registry holds `metaW` under the key of chat 42,
topic 5. -/
def stW : BotState :=
  { topics_metadata := [(get_topic_key 42 5, metaW)],
    persisted_metadata := [(get_topic_key 42 5, metaW)],
    files := [] }

/-- Witness for C8 at a concrete store and topic. -/
theorem C8_witness :
    alookup (get_topic_key 42 5)
        (store_message stW scanNow 42 (some 5) "7".toList "a".toList "x".toList
          (some 1) true).topics_metadata =
      some { metaW with message_count := metaW.message_count + 1 } :=
  C8_compact_frames_metadata.2 stW scanNow 42 5 "7".toList "a".toList "x".toList
    (some 1) true metaW (by decide) (by decide)

/-- Witness for C10 at a concrete store and topic. -/
theorem C10_witness :
    alookup (get_topic_key 42 5)
        (store_message stW scanNow 42 (some 5) "7".toList "a".toList "x".toList
          (some 1) false).topics_metadata =
      some { metaW with message_count := metaW.message_count + 1 }
    ∧ alookup (get_topic_key 42 5)
        (store_message stW scanNow 42 (some 5) "7".toList "a".toList "x".toList
          (some 1) false).persisted_metadata =
      some { metaW with message_count := metaW.message_count + 1 }
    ∧ (store_message stW scanNow 42 (some 5) "7".toList "a".toList "x".toList
        (some 1) false).files = stW.files :=
  C10_metadata_updated_before_failed_write stW scanNow 42 5 "7".toList "a".toList
    "x".toList (some 1) metaW (by decide) (by decide)

/-- Every message produced by the scan loop is the decoding of one of
the input lines. -/
theorem mem_loadLoop (k : Nat) (fmid : Option Int) :
    ∀ (lines : List PyStr) (found : Bool) (r : Message),
      r ∈ loadLoop k fmid found lines →
      ∃ l, l ∈ lines ∧ decodeSurviving k l = some r := by
  intro lines
  induction lines with
  | nil => intro found r h; cases h
  | cons line rest ih =>
    intro found r h
    cases hp : parseFields line with
    | none =>
      simp only [loadLoop, hp] at h
      obtain ⟨l, hl, hd⟩ := ih found r h
      exact ⟨l, List.mem_cons_of_mem _ hl, hd⟩
    | some q =>
      obtain ⟨ts, u, n, mids, txt⟩ := q
      cases hft : fromIso ts with
      | none =>
        simp only [loadLoop, hp, hft] at h
        obtain ⟨l, hl, hd⟩ := ih found r h
        exact ⟨l, List.mem_cons_of_mem _ hl, hd⟩
      | some t =>
        by_cases hk : t.key < k
        · simp only [loadLoop, hp, hft, if_pos hk] at h
          obtain ⟨l, hl, hd⟩ := ih found r h
          exact ⟨l, List.mem_cons_of_mem _ hl, hd⟩
        · have hdec : decodeSurviving k line = buildMsg ts u n mids txt t := by
            simp [decodeSurviving, hp, hft, hk]
          simp only [loadLoop, hp, hft, if_neg hk] at h
          by_cases hc1 : (truthyOptInt fmid && !found) = true
          · rw [if_pos hc1] at h
            by_cases hc2 : (!(mids == noneChars) && mids == markerChars fmid) = true
            · rw [if_pos hc2] at h
              rcases List.mem_append.mp h with h1 | h2
              · refine ⟨line, List.mem_cons_self _ _, ?_⟩
                cases hb : buildMsg ts u n mids txt t with
                | none => rw [hb] at h1; cases h1
                | some m =>
                  rw [hb] at h1
                  simp only [Option.toList_some, List.mem_singleton] at h1
                  rw [hdec, hb, h1]
              · obtain ⟨l, hl, hd⟩ := ih true r h2
                exact ⟨l, List.mem_cons_of_mem _ hl, hd⟩
            · rw [if_neg hc2] at h
              obtain ⟨l, hl, hd⟩ := ih found r h
              exact ⟨l, List.mem_cons_of_mem _ hl, hd⟩
          · rw [if_neg hc1] at h
            rcases List.mem_append.mp h with h1 | h2
            · refine ⟨line, List.mem_cons_self _ _, ?_⟩
              cases hb : buildMsg ts u n mids txt t with
              | none => rw [hb] at h1; cases h1
              | some m =>
                rw [hb] at h1
                simp only [Option.toList_some, List.mem_singleton] at h1
                rw [hdec, hb, h1]
            · obtain ⟨l, hl, hd⟩ := ih found r h2
              exact ⟨l, List.mem_cons_of_mem _ hl, hd⟩

/-- Every message returned by a scan, with any marker and limit, is
the decoding of one of the stored lines. -/
theorem mem_loadLines {lines : List PyStr} {now : PyDateTime}
    {limit fmid : Option Int} {r : Message}
    (h : r ∈ loadLines lines now limit fmid) :
    ∃ l, l ∈ lines ∧ decodeSurviving (cutoffKey now) l = some r := by
  unfold loadLines at h
  have hsorted : r ∈ sortByDate (loadLoop (cutoffKey now) fmid fmid.isNone lines) := by
    by_cases ht : truthyOptInt limit = true
    · rw [if_pos ht] at h
      unfold pySliceLast at h
      by_cases hl : 0 < limit.getD 0
      · rw [if_pos hl] at h; exact List.mem_of_mem_drop h
      · rw [if_neg hl] at h; exact List.mem_of_mem_drop h
    · rw [if_neg ht] at h
      exact h
  exact mem_loadLoop _ _ lines _ r (mem_sortByDate.mp hsorted)

/-- C3 (counterexample): a 5-field line whose timestamp parses and
whose external-id field is neither numeric nor the sentinel is not
skipped — it contributes one record to the scan result. -/
theorem C3_counterexample : (loadLines [lineBadMid] scanNow none none).length = 1 := by
  decide

/-- C3 (amended): for every stored line with 5 or more fields whose
timestamp parses and survives the cutoff, whose external-id field is
neither numeric nor the `'None'` sentinel, and whose author id parses
as an integer, the line is not skipped: it contributes a record whose
external id is `None` to the scan result, and no exception escapes the
scan loop (the decoder is total). -/
theorem C3_bad_external_id_not_skipped :
    ∀ (lines : List PyStr) (now : PyDateTime) (line ts u n mids txt : PyStr)
      (t : PyDateTime) (uid : Int),
      line ∈ lines →
      parseFields line = some (ts, u, n, mids, txt) →
      fromIso ts = some t →
      ¬ t.key < cutoffKey now →
      mids ≠ noneChars →
      pyIsdigit mids = false →
      pyInt? u = some uid →
      decodeSurviving (cutoffKey now) line =
        some { text := txt, user := n, user_id := uid, date := t,
               formatted_date := fmtHM t, timestamp := ts, message_id := none }
      ∧ { text := txt, user := n, user_id := uid, date := t,
          formatted_date := fmtHM t, timestamp := ts,
          message_id := (none : Option Int) } ∈ loadLines lines now none none := by
  intro lines now line ts u n mids txt t uid hmem hp hft hk hnn hdig hu
  have hdec : decodeSurviving (cutoffKey now) line =
      some { text := txt, user := n, user_id := uid, date := t,
             formatted_date := fmtHM t, timestamp := ts, message_id := none } := by
    simp [decodeSurviving, hp, hft, hk, buildMsg, hu, hdig]
  refine ⟨hdec, ?_⟩
  rw [loadLines_no_marker]
  exact mem_sortByDate.mpr (List.mem_filterMap.mpr ⟨line, hmem, hdec⟩)

/-- Witness for C3 at the concrete line `lineBadMid`. -/
theorem C3_witness :
    decodeSurviving (cutoffKey scanNow) lineBadMid =
      some { text := "hello".toList, user := "alice".toList, user_id := 7,
             date := ⟨2025, 6, 5, 10, 0, 0, 0⟩,
             formatted_date := fmtHM ⟨2025, 6, 5, 10, 0, 0, 0⟩,
             timestamp := "2025-06-05T10:00:00".toList, message_id := none }
    ∧ { text := "hello".toList, user := "alice".toList, user_id := 7,
        date := ⟨2025, 6, 5, 10, 0, 0, 0⟩,
        formatted_date := fmtHM ⟨2025, 6, 5, 10, 0, 0, 0⟩,
        timestamp := "2025-06-05T10:00:00".toList,
        message_id := (none : Option Int) } ∈ loadLines [lineBadMid] scanNow none none :=
  C3_bad_external_id_not_skipped [lineBadMid] scanNow lineBadMid
    "2025-06-05T10:00:00".toList "7".toList "alice".toList "abc".toList "hello".toList
    ⟨2025, 6, 5, 10, 0, 0, 0⟩ 7 (by decide) (by decide) (by decide) (by decide)
    (by decide) (by decide) (by decide)

/-- C9: decoding skips every stored line whose author-id field does
not parse as an integer — including the lines the program itself
writes with the `'bot'` sentinel for messages without a `from_user` —
and every record a scan returns comes from a line that decodes, so
such stored messages never appear in any scan result. -/
theorem C9_unparseable_author_never_returned :
    (∀ (k : Nat) (line ts u n mids txt : PyStr),
        parseFields line = some (ts, u, n, mids, txt) →
        pyInt? u = none →
        decodeSurviving k line = none)
    ∧ (text_message_author none).1 = "bot".toList
    ∧ pyInt? "bot".toList = none
    ∧ (∀ (lines : List PyStr) (now : PyDateTime) (limit fmid : Option Int) (r : Message),
        r ∈ loadLines lines now limit fmid →
        ∃ l, l ∈ lines ∧ decodeSurviving (cutoffKey now) l = some r) := by
  refine ⟨?_, rfl, by decide, fun lines now limit fmid r h => mem_loadLines h⟩
  intro k line ts u n mids txt hp hu
  cases hft : fromIso ts with
  | none => simp [decodeSurviving, hp, hft]
  | some t =>
    by_cases hk : t.key < k
    · simp [decodeSurviving, hp, hft, hk]
    · simp [decodeSurviving, hp, hft, hk, buildMsg, hu]

/-- Witness for C9: the bot-authored line decodes to nothing, and a
record returned from a concrete store comes from one of its lines. -/
theorem C9_witness :
    decodeSurviving (cutoffKey scanNow) lineBotMarker = none
    ∧ ∃ l, l ∈ [lineGood101]
        ∧ decodeSurviving (cutoffKey scanNow) l =
            some { text := "x".toList, user := "alice".toList, user_id := 7,
                   date := ⟨2025, 6, 1, 0, 0, 0, 0⟩,
                   formatted_date := fmtHM ⟨2025, 6, 1, 0, 0, 0, 0⟩,
                   timestamp := "2025-06-01T00:00:00".toList, message_id := some 101 } :=
  ⟨C9_unparseable_author_never_returned.1 (cutoffKey scanNow) lineBotMarker
      "2025-06-01T00:00:00".toList "bot".toList "Bot".toList "102".toList "x".toList
      (by decide) (by decide),
   C9_unparseable_author_never_returned.2.2.2 [lineGood101] scanNow none none
      { text := "x".toList, user := "alice".toList, user_id := 7,
        date := ⟨2025, 6, 1, 0, 0, 0, 0⟩,
        formatted_date := fmtHM ⟨2025, 6, 1, 0, 0, 0, 0⟩,
        timestamp := "2025-06-01T00:00:00".toList, message_id := some 101 }
      (by decide)⟩

/-- C1 (counterexample): two concrete scans falsify the claim as
stated. First, over a store holding a bot-authored line whose
external-id field is 102 followed by a good record 103: no decoded
record has external id 102, yet the scan with marker 102 is nonempty
(the marker matches on the raw field of a line whose record is then
skipped). Second, with marker 0: no record has external id 0, yet the
scan returns the whole store, because `if from_message_id:` treats 0
as unset. -/
theorem C1_counterexample :
    (((([lineBotMarker, lineGood103] : List PyStr).filterMap
          (decodeSurviving (cutoffKey scanNow))).all
        (fun m => !(m.message_id == some 102)) = true)
      ∧ loadLines [lineBotMarker, lineGood103] scanNow none (some 102) ≠ [])
    ∧ (((([lineGood101] : List PyStr).filterMap
          (decodeSurviving (cutoffKey scanNow))).all
        (fun m => !(m.message_id == some 0)) = true)
      ∧ loadLines [lineGood101] scanNow none (some 0) ≠ []) := by
  exact ⟨⟨by decide, by decide⟩, by decide, by decide⟩

/-- C1 (amended): for every backing store and every scan with a
nonzero start marker M, matching performed on the stored external-id
field: every surviving line (parseable fields and timestamp, at or
after the cutoff) before the first surviving line whose external-id
field equals the decimal rendering of M is discarded; that line and
every line after it contribute their decoded records (sorted by date);
if no surviving line matches, the result is the empty sequence and no
error is raised. -/
theorem C1_marker_scan :
    ∀ (st : BotState) (chat_id : Int) (topic_id : Option Int) (lines : List PyStr)
      (now : PyDateTime) (M : Int),
      M ≠ 0 →
      alookup (get_storage_filename chat_id topic_id) st.files = some lines →
      load_messages st chat_id topic_id none (some M) now =
        sortByDate ((lines.dropWhile
            (fun l => !(lineSurvivesMatch (cutoffKey now) M l))).filterMap
          (decodeSurviving (cutoffKey now)))
      ∧ ((∀ l ∈ lines, lineSurvivesMatch (cutoffKey now) M l = false) →
          load_messages st chat_id topic_id none (some M) now = []) := by
  intro st c tid lines now M hM hfile
  have hmain : load_messages st c tid none (some M) now =
      sortByDate ((lines.dropWhile
          (fun l => !(lineSurvivesMatch (cutoffKey now) M l))).filterMap
        (decodeSurviving (cutoffKey now))) := by
    simp only [load_messages, hfile, loadLines, Option.isNone_some, Option.isNone_none,
      truthyOptInt, loadLoop_marker (cutoffKey now) M hM lines]
    rfl
  refine ⟨hmain, fun hall => ?_⟩
  rw [hmain]
  have hnil : lines.dropWhile (fun l => !(lineSurvivesMatch (cutoffKey now) M l)) = [] := by
    rw [List.dropWhile_eq_nil_iff]
    intro l hl
    simp [hall l hl]
  rw [hnil]
  rfl

/-- A store holding the two good lines under the chat-9 file. -/
def stC1 : BotState :=
  { topics_metadata := [], persisted_metadata := [],
    files := [(get_storage_filename 9 none, [lineGood101, lineGood103])] }

/-- Witness for C1 at a concrete store and marker 103. -/
theorem C1_witness :
    load_messages stC1 9 none none (some 103) scanNow =
      sortByDate ((([lineGood101, lineGood103] : List PyStr).dropWhile
          (fun l => !(lineSurvivesMatch (cutoffKey scanNow) 103 l))).filterMap
        (decodeSurviving (cutoffKey scanNow))) :=
  (C1_marker_scan stC1 9 none [lineGood101, lineGood103] scanNow 103
    (by decide) (by decide)).1

/-! ### Archival exclusivity (C7) -/

/-- The active-area location of a topic's backing store. -/
def activeFile (c t : Int) : StorePath := get_storage_filename c (some t)

/-- The archive-area location of a topic's backing store. -/
def archiveFile (c t : Int) : StorePath := ⟨true, (get_storage_filename c (some t)).base⟩

/-- Exactly one of the active file and the archived file exists. -/
def exactlyOneFile (c t : Int) (st : BotState) : Prop :=
  (alookup (activeFile c t) st.files).isSome ≠ (alookup (archiveFile c t) st.files).isSome

/-- The invariant carried through a topic's lifecycle after creation:
metadata for the key is registered, and exactly one of the two file
locations is occupied. -/
def fileInv (c t : Int) (st : BotState) : Prop :=
  (alookup (get_topic_key c t) st.topics_metadata).isSome = true ∧ exactlyOneFile c t st

theorem storage_filename_area (c : Int) (tid : Option Int) :
    (get_storage_filename c tid).archivedArea = false := by
  unfold get_storage_filename
  cases tid with
  | none => rfl
  | some t => by_cases h : t ≠ 0 <;> simp [h]

theorem active_ne_archive (c t : Int) : activeFile c t ≠ archiveFile c t := by
  intro h
  have harea := congrArg StorePath.archivedArea h
  rw [show (archiveFile c t).archivedArea = true from rfl,
    show (activeFile c t).archivedArea = (get_storage_filename c (some t)).archivedArea from rfl,
    storage_filename_area] at harea
  exact Bool.false_ne_true harea

theorem archiveFile_eq (c t : Int) (ht : t ≠ 0) :
    archiveFile c t =
      ⟨true, "topic_" ++ toString c ++ "_" ++ toString t ++ ".txt"⟩ := by
  simp [archiveFile, get_storage_filename, ht]

theorem fileInv_created (c t : Int) (now : PyDateTime) (name : String)
    (st : BotState)
    (ha : alookup (activeFile c t) st.files = none)
    (hb : alookup (archiveFile c t) st.files = none) :
    fileInv c t (handle_topic_created st now c t name) := by
  unfold fileInv handle_topic_created exactlyOneFile
  refine ⟨by simp [alookup_aset_self], ?_⟩
  have hfn : get_storage_filename c (some t) = activeFile c t := rfl
  rw [hfn]
  simp only [ha, Option.isSome_none, Bool.false_eq_true, if_false]
  rw [show (alookup (activeFile c t)
      (aset (activeFile c t) ([] : List PyStr) st.files)) = some [] from
    alookup_aset_self _ _ _]
  rw [alookup_aset_ne _ (active_ne_archive c t) st.files, hb]
  simp

theorem fileInv_closed (c t : Int) (now : PyDateTime) (st : BotState)
    (h : fileInv c t st) : fileInv c t (handle_topic_closed st now c t) := by
  obtain ⟨hmeta, hfiles⟩ := h
  unfold handle_topic_closed
  rcases hm : alookup (get_topic_key c t) st.topics_metadata with _ | meta
  · rw [hm] at hmeta
    simp at hmeta
  · simp only [hm]
    refine ⟨by simp [alookup_aset_self], ?_⟩
    unfold exactlyOneFile at hfiles ⊢
    have hfn : get_storage_filename c (some t) = activeFile c t := rfl
    rw [hfn]
    have harch : (⟨true, (activeFile c t).base⟩ : StorePath) = archiveFile c t := rfl
    rw [harch]
    cases hcur : alookup (activeFile c t) st.files with
    | some content =>
      simp only []
      rw [show (alookup (activeFile c t)
          (aset (archiveFile c t) content (aremove (activeFile c t) st.files))) =
            alookup (activeFile c t) (aremove (activeFile c t) st.files) from
        alookup_aset_ne _ (Ne.symm (active_ne_archive c t)) _]
      rw [alookup_aremove_self, alookup_aset_self]
      simp
    | none =>
      exact hfiles

theorem fileInv_reopened (c t : Int) (ht : t ≠ 0) (now : PyDateTime) (st : BotState)
    (h : fileInv c t st) : fileInv c t (handle_topic_reopened st now c t) := by
  obtain ⟨hmeta, hfiles⟩ := h
  unfold handle_topic_reopened
  rcases hm : alookup (get_topic_key c t) st.topics_metadata with _ | meta
  · rw [hm] at hmeta
    simp at hmeta
  · simp only [hm]
    refine ⟨by simp [alookup_aset_self], ?_⟩
    unfold exactlyOneFile at hfiles ⊢
    have hfn : get_storage_filename c (some t) = activeFile c t := rfl
    have harch :
        (⟨true, "topic_" ++ toString c ++ "_" ++ toString t ++ ".txt"⟩ : StorePath) =
          archiveFile c t := (archiveFile_eq c t ht).symm
    rw [hfn, harch]
    cases harc : alookup (archiveFile c t) st.files with
    | some content =>
      simp only []
      rw [alookup_aset_self]
      rw [show (alookup (archiveFile c t)
          (aset (activeFile c t) content (aremove (archiveFile c t) st.files))) =
            alookup (archiveFile c t) (aremove (archiveFile c t) st.files) from
        alookup_aset_ne _ (active_ne_archive c t) _]
      rw [alookup_aremove_self]
      simp
    | none =>
      rw [harc] at hfiles
      have hact : (alookup (activeFile c t) st.files).isSome = true := by
        cases hoa : (alookup (activeFile c t) st.files).isSome with
        | true => rfl
        | false => rw [hoa] at hfiles; simp at hfiles
      simp only [hact, if_true]
      rw [harc]
      simp [hact]

theorem fileInv_run (c t : Int) (ht : t ≠ 0) (now : PyDateTime) :
    ∀ (p : List TopicEvent) (st : BotState),
      fileInv c t st →
      (∀ e ∈ p, e = TopicEvent.closed ∨ e = TopicEvent.reopened) →
      fileInv c t (runEvents c t now st p) := by
  intro p
  induction p with
  | nil => intro st h _; exact h
  | cons e p' ih =>
    intro st h hp
    have hrest : ∀ x ∈ p', x = TopicEvent.closed ∨ x = TopicEvent.reopened :=
      fun x hx => hp x (List.mem_cons_of_mem _ hx)
    have hstep : runEvents c t now st (e :: p') =
        runEvents c t now (topicStep c t now st e) p' := rfl
    rw [hstep]
    rcases hp e (List.mem_cons_self _ _) with he | he <;> subst he
    · exact ih _ (fileInv_closed c t now st h) hrest
    · exact ih _ (fileInv_reopened c t ht now st h) hrest

/-- C7 (counterexample): the event sequence created, closed, created —
which begins with topic-created — leaves both the active and the
archived file in existence: `handle_topic_created` touches a fresh
active file without removing the archived one. -/
theorem C7_counterexample :
    (alookup (activeFile 42 5)
        (runEvents 42 5 scanNow emptyState
          [TopicEvent.created "a", TopicEvent.closed, TopicEvent.created "b"]).files).isSome
      = true
    ∧ (alookup (archiveFile 42 5)
        (runEvents 42 5 scanNow emptyState
          [TopicEvent.created "a", TopicEvent.closed, TopicEvent.created "b"]).files).isSome
      = true := by
  exact ⟨by decide, by decide⟩

/-- C7 (amended): for every key (with a truthy topic id) and every
sequence of lifecycle events consisting of one initial topic-created
event followed by any sequence of topic-closed / topic-reopened
events, starting from a state in which neither file exists: after each
event exactly one of the active file and the archived file for that
key exists — never both and never neither. -/
theorem C7_archival_exclusive :
    ∀ (chat_id t : Int) (name : String) (evs : List TopicEvent)
      (now : PyDateTime) (st0 : BotState),
      t ≠ 0 →
      (∀ e ∈ evs, e = TopicEvent.closed ∨ e = TopicEvent.reopened) →
      alookup (activeFile chat_id t) st0.files = none →
      alookup (archiveFile chat_id t) st0.files = none →
      ∀ p q : List TopicEvent, evs = p ++ q →
        exactlyOneFile chat_id t
          (runEvents chat_id t now
            (topicStep chat_id t now st0 (TopicEvent.created name)) p) := by
  intro c t name evs now st0 ht hevs ha hb p q hpq
  have hinv0 : fileInv c t (topicStep c t now st0 (TopicEvent.created name)) :=
    fileInv_created c t now name st0 ha hb
  have hp : ∀ e ∈ p, e = TopicEvent.closed ∨ e = TopicEvent.reopened := by
    intro e he
    exact hevs e (hpq ▸ List.mem_append_left q he)
  exact (fileInv_run c t ht now p _ hinv0 hp).2

/-- Witness for C7: create then close topic 5 of chat 42; exactly one
file exists after the prefix. -/
theorem C7_witness :
    exactlyOneFile 42 5
      (runEvents 42 5 scanNow
        (topicStep 42 5 scanNow emptyState (TopicEvent.created "Planning"))
        [TopicEvent.closed]) :=
  C7_archival_exclusive 42 5 "Planning" [TopicEvent.closed, TopicEvent.reopened]
    scanNow emptyState (by decide) (by decide) (by decide) (by decide)
    [TopicEvent.closed] [TopicEvent.reopened] rfl

/-! ### Split / join / strip lemmas for the codec round trip (C4) -/

theorem pySplit_ne_nil (sep : Char) : ∀ s : PyStr, pySplit sep s ≠ [] := by
  intro s
  induction s with
  | nil => simp [pySplit]
  | cons c cs ih =>
    unfold pySplit
    by_cases h : c = sep
    · simp [h]
    · simp only [if_neg h]
      cases hs : pySplit sep cs with
      | nil => simp
      | cons t ts => simp

theorem pySplit_append_sep (sep : Char) :
    ∀ (a r : PyStr), sep ∉ a → pySplit sep (a ++ sep :: r) = a :: pySplit sep r := by
  intro a
  induction a with
  | nil => intro r _; simp [pySplit]
  | cons c a' ih =>
    intro r ha
    have hc : ¬ c = sep := by
      intro h
      exact ha (h ▸ List.mem_cons_self c a')
    have ha' : sep ∉ a' := fun h => ha (List.mem_cons_of_mem _ h)
    show pySplit sep (c :: (a' ++ sep :: r)) = (c :: a') :: pySplit sep r
    simp only [pySplit, if_neg hc, ih r ha']

theorem pyJoin_pySplit (sep : Char) : ∀ s : PyStr, pyJoin sep (pySplit sep s) = s := by
  intro s
  induction s with
  | nil => rfl
  | cons c cs ih =>
    by_cases h : c = sep
    · subst h
      unfold pySplit
      rw [if_pos rfl]
      cases hs : pySplit c cs with
      | nil => exact absurd hs (pySplit_ne_nil c cs)
      | cons t ts =>
        rw [hs] at ih
        show pyJoin c ([] :: t :: ts) = c :: cs
        unfold pyJoin
        rw [show ([] : PyStr) ++ c :: pyJoin c (t :: ts) = c :: pyJoin c (t :: ts) from rfl]
        rw [ih]
    · unfold pySplit
      rw [if_neg h]
      cases hs : pySplit sep cs with
      | nil => exact absurd hs (pySplit_ne_nil sep cs)
      | cons t ts =>
        rw [hs] at ih
        show pyJoin sep ((c :: t) :: ts) = c :: cs
        cases ts with
        | nil =>
          unfold pyJoin at ih ⊢
          rw [← ih]
        | cons t2 ts2 =>
          show (c :: t) ++ sep :: pyJoin sep (t2 :: ts2) = c :: cs
          rw [← ih]
          rfl

/-- Splitting off a clean (already fully kept) left part commutes with
`dropWhile` when the junction character is not dropped. -/
theorem dropWhile_flat (p : Char → Bool) (a : PyStr) (c : Char) (b : PyStr)
    (ha : a.dropWhile p = a) (hc : p c = false) :
    (a ++ c :: b).dropWhile p = a ++ c :: b := by
  rw [List.dropWhile_append, ha]
  cases a with
  | nil =>
    simp only [List.isEmpty_nil, if_true]
    rw [List.dropWhile_cons_of_neg (by simp [hc])]
    rfl
  | cons x xs => simp

/-- Stripping an encoded line removes exactly the trailing newline when
the body neither starts nor ends with whitespace. -/
theorem pyStrip_newline (body : PyStr)
    (h1 : body.dropWhile Char.isWhitespace = body)
    (h2 : body.reverse.dropWhile Char.isWhitespace = body.reverse) :
    pyStrip (body ++ ['\n']) = body := by
  cases body with
  | nil => decide
  | cons x xs =>
    unfold pyStrip
    rw [List.dropWhile_append, h1]
    rw [if_neg (by simp)]
    have hrev : ((x :: xs) ++ ['\n']).reverse = '\n' :: (x :: xs).reverse := by
      rw [List.reverse_append]
      rfl
    rw [hrev, List.dropWhile_cons_of_pos (by decide), h2, List.reverse_reverse]

theorem not_bar_mem_of_isdigit {s : PyStr} (h : pyIsdigit s = true) : '|' ∉ s := by
  intro hm
  unfold pyIsdigit at h
  rw [Bool.and_eq_true] at h
  have hd : ('|').isDigit = true := List.all_eq_true.mp h.2 '|' hm
  exact absurd hd (by decide)

/-- Decoding the fields of an encoded line recovers the fields, with
the trailing text rejoined, provided the four leading fields are free
of the delimiter, the timestamp does not start with whitespace, and
the text does not end with whitespace. -/
theorem parseFields_encode (tsC uid uname midsC txt : PyStr)
    (htsbar : '|' ∉ tsC) (huidbar : '|' ∉ uid) (hunamebar : '|' ∉ uname)
    (hmidbar : '|' ∉ midsC)
    (hts1 : tsC.dropWhile Char.isWhitespace = tsC)
    (htxt : txt.reverse.dropWhile Char.isWhitespace = txt.reverse) :
    parseFields (encodeLine tsC uid uname midsC txt) =
      some (tsC, uid, uname, midsC, txt) := by
  have hline : encodeLine tsC uid uname midsC txt =
      (tsC ++ '|' :: (uid ++ '|' :: (uname ++ '|' :: (midsC ++ '|' :: txt)))) ++ ['\n'] := by
    simp [encodeLine, List.append_assoc]
  have h1 : (tsC ++ '|' :: (uid ++ '|' :: (uname ++ '|' :: (midsC ++ '|' :: txt)))).dropWhile
        Char.isWhitespace =
      tsC ++ '|' :: (uid ++ '|' :: (uname ++ '|' :: (midsC ++ '|' :: txt))) :=
    dropWhile_flat _ tsC '|' (uid ++ '|' :: (uname ++ '|' :: (midsC ++ '|' :: txt)))
      hts1 (by decide)
  have hA : tsC ++ '|' :: (uid ++ '|' :: (uname ++ '|' :: (midsC ++ '|' :: txt))) =
      (tsC ++ '|' :: (uid ++ '|' :: (uname ++ '|' :: midsC))) ++ '|' :: txt := by
    simp [List.append_assoc]
  have hrev : (tsC ++ '|' :: (uid ++ '|' :: (uname ++ '|' :: (midsC ++ '|' :: txt)))).reverse =
      txt.reverse ++ '|' :: (tsC ++ '|' :: (uid ++ '|' :: (uname ++ '|' :: midsC))).reverse := by
    rw [hA, List.reverse_append, List.reverse_cons]
    simp [List.append_assoc]
  have h2 : (tsC ++ '|' :: (uid ++ '|' :: (uname ++ '|' :: (midsC ++ '|' :: txt)))).reverse.dropWhile
        Char.isWhitespace =
      (tsC ++ '|' :: (uid ++ '|' :: (uname ++ '|' :: (midsC ++ '|' :: txt)))).reverse := by
    rw [hrev]
    exact dropWhile_flat _ txt.reverse '|'
      (tsC ++ '|' :: (uid ++ '|' :: (uname ++ '|' :: midsC))).reverse htxt (by decide)
  have hstrip : pyStrip (encodeLine tsC uid uname midsC txt) =
      tsC ++ '|' :: (uid ++ '|' :: (uname ++ '|' :: (midsC ++ '|' :: txt))) := by
    rw [hline]
    exact pyStrip_newline _ h1 h2
  unfold parseFields
  rw [hstrip, pySplit_append_sep '|' tsC (uid ++ '|' :: (uname ++ '|' :: (midsC ++ '|' :: txt)))
      htsbar,
    pySplit_append_sep '|' uid (uname ++ '|' :: (midsC ++ '|' :: txt)) huidbar,
    pySplit_append_sep '|' uname (midsC ++ '|' :: txt) hunamebar,
    pySplit_append_sep '|' midsC txt hmidbar]
  cases hs : pySplit '|' txt with
  | nil => exact absurd hs (pySplit_ne_nil _ txt)
  | cons w ws =>
    show some (tsC, uid, uname, midsC, pyJoin '|' (w :: ws)) = some (tsC, uid, uname, midsC, txt)
    rw [← hs, pyJoin_pySplit]

/-- A valid optional external id from the encoder's point of view:
absent, or a positive integer whose decimal rendering the decoder
parses back to the same value. -/
def MidOk : Option Int → Prop
  | none => True
  | some m => 0 < m ∧ pyIsdigit (intChars m) = true ∧
      (digitsToNat (intChars m)).map (fun j => (j : Int)) = some m

instance (mid : Option Int) : Decidable (MidOk mid) := by
  cases mid with
  | none => exact isTrue trivial
  | some m =>
    exact inferInstanceAs (Decidable (0 < m ∧ pyIsdigit (intChars m) = true ∧
      (digitsToNat (intChars m)).map (fun j => (j : Int)) = some m))

/-- Concrete datetime used for the C4 record. -/
def dC4 : PyDateTime := ⟨2025, 6, 1, 10, 0, 0, 0⟩

/-- C4 (counterexample): four encode-decode round trips that fail as
the claim is stated. With the `'bot'` author sentinel the decoded line
is skipped entirely (`int('bot')` raises). With external id 0 the
encoder writes the `'None'` sentinel (`message_id or 'None'`), so the
id decodes to `None`. With a negative external id the decoder's
`isdigit` test fails, so the id decodes to `None`. With text ending in
whitespace, `line.strip()` removes it, so the text comes back
shortened. -/
theorem C4_counterexample :
    decodeSurviving 0 (encodeLine (isoChars dC4) "bot".toList "Bot".toList
        (midOrNone (some 5)) "hi".toList) = none
    ∧ (decodeSurviving 0 (encodeLine (isoChars dC4) "7".toList "Bob".toList
        (midOrNone (some 0)) "hi".toList)).map (fun m => m.message_id) = some none
    ∧ (decodeSurviving 0 (encodeLine (isoChars dC4) "7".toList "Bob".toList
        (midOrNone (some (-3))) "hi".toList)).map (fun m => m.message_id) = some none
    ∧ (decodeSurviving 0 (encodeLine (isoChars dC4) "7".toList "Bob".toList
        (midOrNone (some 101)) "hi ".toList)).map (fun m => m.text) =
      some "hi".toList := by
  refine ⟨by decide, by decide, by decide, by decide⟩

/-- C4 (amended): for every valid record — parseable timestamp not
starting with whitespace, author id that parses as an integer,
delimiter-free author id and name, external id absent or a positive
integer, single-line text with no trailing whitespace (the text may
contain the delimiter) — decoding the line produced by encoding the
record yields the same record back. -/
theorem C4_round_trip :
    ∀ (d : PyDateTime) (uid : PyStr) (u : Int) (uname : PyStr)
      (mid : Option Int) (txt : PyStr),
      fromIso (isoChars d) = some d →
      '|' ∉ isoChars d →
      (isoChars d).dropWhile Char.isWhitespace = isoChars d →
      pyInt? uid = some u →
      '|' ∉ uid →
      '|' ∉ uname →
      MidOk mid →
      txt.reverse.dropWhile Char.isWhitespace = txt.reverse →
      '\n' ∉ txt →
      decodeSurviving 0 (encodeLine (isoChars d) uid uname (midOrNone mid) txt) =
        some { text := txt, user := uname, user_id := u, date := d,
               formatted_date := fmtHM d, timestamp := isoChars d, message_id := mid } := by
  intro d uid u uname mid txt hts htsbar hts1 huid huidbar hunamebar hmid htxt _hnl
  have hmidbar : '|' ∉ midOrNone mid := by
    cases mid with
    | none =>
      show '|' ∉ noneChars
      decide
    | some m =>
      obtain ⟨hm0, hdig, _⟩ := hmid
      have hm : ¬ m = 0 := by
        intro h
        rw [h] at hm0
        exact lt_irrefl 0 hm0
      simp only [midOrNone, if_neg hm]
      exact not_bar_mem_of_isdigit hdig
  have hpf := parseFields_encode (isoChars d) uid uname (midOrNone mid) txt
    htsbar huidbar hunamebar hmidbar hts1 htxt
  have hstep : decodeSurviving 0 (encodeLine (isoChars d) uid uname (midOrNone mid) txt) =
      buildMsg (isoChars d) uid uname (midOrNone mid) txt d := by
    simp [decodeSurviving, hpf, hts]
  rw [hstep]
  simp only [buildMsg, huid]
  simp only [Option.some.injEq, Message.mk.injEq, eq_self_iff_true, true_and]
  cases mid with
  | none =>
    show (if noneChars ≠ noneChars ∧ pyIsdigit noneChars then
        (digitsToNat noneChars).map (fun k => (k : Int)) else none) = none
    simp
  | some m =>
    obtain ⟨hm0, hdig, hval⟩ := hmid
    have hm : ¬ m = 0 := by
      intro h
      rw [h] at hm0
      exact lt_irrefl 0 hm0
    show (if midOrNone (some m) ≠ noneChars ∧ pyIsdigit (midOrNone (some m)) then
        (digitsToNat (midOrNone (some m))).map (fun k => (k : Int)) else none) = some m
    simp only [midOrNone, if_neg hm]
    have hne : intChars m ≠ noneChars := by
      intro h
      rw [h] at hdig
      exact absurd hdig (by decide)
    rw [if_pos ⟨hne, hdig⟩]
    exact hval

/-- Witness for C4: a concrete record with a positive external id and
text containing the delimiter round-trips. -/
theorem C4_witness :
    decodeSurviving 0 (encodeLine (isoChars dC4) "7".toList "alice".toList
        (midOrNone (some 101)) "hi|there".toList) =
      some { text := "hi|there".toList, user := "alice".toList, user_id := 7,
             date := dC4, formatted_date := fmtHM dC4, timestamp := isoChars dC4,
             message_id := some 101 } :=
  C4_round_trip dC4 "7".toList 7 "alice".toList (some 101) "hi|there".toList
    (by decide) (by decide) (by decide) (by decide) (by decide) (by decide)
    (by decide) (by decide) (by decide)

end BriefBot
